import Mathlib

/-!
Shallow embedding of the `Mocap` dataset class
(`xR-EgoPose/dataset/mocap.py`): a recursive directory indexer pairing
image files with joint-data files, a joint filter with centimeter-to-meter
conversion, and per-sample access with optional transform hooks.

Python dictionaries are embedded as association lists with
insert-or-replace update (`dUpdate`) and first-match lookup (`dGet`);
a failed dictionary or list lookup, which raises in Python, is an
explicit `PyErr` value.  Numeric arrays are rational matrices
(`List (List Rat)`), and file-system and image I/O are an explicit
environment of partial functions.
-/

set_option maxHeartbeats 1000000

namespace Mocap

/-- Python `dict.update {k: v}`: replace the value of an existing key in
place (keeping its position), otherwise append the new binding at the
end — exactly the insertion-order semantics of a Python `dict`. -/
def dUpdate {α : Type} : List (String × α) → String → α → List (String × α)
  | [], k, v => [(k, v)]
  | p :: rest, k, v =>
    if p.1 = k then (k, v) :: rest else p :: dUpdate rest k v

/-- Python `d[k]` as a total lookup: `some` of the first matching value. -/
def dGet {α : Type} : List (String × α) → String → Option α
  | [], _ => none
  | p :: rest, k => if p.1 = k then some p.2 else dGet rest k

/-- Errors the Python code can raise on a lookup or an I/O call. -/
inductive PyErr where
  | keyError (k : String)
  | indexError
  | ioError
  deriving DecidableEq

/-- A directory: named immediate subdirectories (in listing order, as
`io.get_subdirs` returns them) and the files directly inside it (in
listing order, as `io.get_files` returns them, already as the full path
strings the indexer stores). -/
inductive FsDir where
  | node : List (String × FsDir) → List String → FsDir

/-- Files directly inside a directory. -/
def FsDir.files : FsDir → List String
  | .node _ fs => fs

/-- `Mocap.ROOT_DIRS`. -/
def ROOT_DIRS : List String := ["rgba", "json"]

/-- `Mocap.CM_TO_M`. -/
def CM_TO_M : Nat := 100

/-- The files of the immediate subdirectory called `name`
(`io.get_files(os.path.join(path, name))`); empty when no such child
exists (the indexer only reads it under a membership guard). -/
def childFiles (entries : List (String × FsDir)) (name : String) :
    List String :=
  match dGet entries name with
  | some d => d.files
  | none => []

/-- The `logger.error` text for a frame-count mismatch in `sub_dir`. -/
def mismatchMsg (sub_dir : String) : String :=
  "Frames info in " ++ sub_dir ++ " not matching other passes"

/-- The both-subfolders-present branch of `Mocap._index_dir`: walk
`ROOT_DIRS`, listing the files of each category child, tracking
`n_frames` (initialized to `-1`) and logging — not raising — on a count
mismatch, and record each file list under its category key. -/
def indexLeaf (entries : List (String × FsDir)) :
    List (String × List String) × List String :=
  let step := fun (acc : List (String × List String) × Int × List String)
      (sub_dir : String) =>
    let paths := childFiles entries sub_dir
    let logs :=
      if acc.2.1 < 0 then acc.2.2
      else if (paths.length : Int) ≠ acc.2.1 then
        acc.2.2 ++ [mismatchMsg sub_dir]
      else acc.2.2
    let n := if acc.2.1 < 0 then (paths.length : Int) else acc.2.1
    (dUpdate acc.1 sub_dir paths, n, logs)
  let r := ROOT_DIRS.foldl step ([], -1, [])
  (r.1, r.2.2)

/-- One merge step of the recursive branch: for each key in `ROOT_DIRS`,
extend the accumulated list with the child's list
(`indexed_paths[r_dir].extend(indexed[r_dir])`). -/
def mergeChild (acc : List (String × List String))
    (child : List (String × List String)) : List (String × List String) :=
  ROOT_DIRS.foldl
    (fun d r => dUpdate d r ((dGet d r).getD [] ++ (dGet child r).getD []))
    acc

/-- The initialization loop of the recursive branch: every category key
bound to an empty list. -/
def initPaths : List (String × List String) :=
  ROOT_DIRS.foldl (fun d r => dUpdate d r []) []

/-- Folding the recursive results of all children, in listing order,
into the initialized dictionary, concatenating their logs. -/
def mergeAll (children : List (List (String × List String) × List String)) :
    List (String × List String) × List String :=
  children.foldl (fun acc c => (mergeChild acc.1 c.1, acc.2 ++ c.2))
    (initPaths, [])

mutual

/-- `Mocap._index_dir`: if the directory directly contains every
category subfolder of `ROOT_DIRS`, record those folders' file lists
(with mismatch logging); otherwise start from empty lists and merge the
recursive result of every immediate child, in listing order.  Returns
the indexed paths together with the accumulated log messages. -/
def indexDir : FsDir → List (String × List String) × List String
  | .node entries _fs =>
    if ROOT_DIRS.all (fun r => (entries.map Prod.fst).contains r) then
      indexLeaf entries
    else
      mergeAll (indexChildren entries)

/-- The recursive calls `self._index_dir(os.path.join(path, sub_dir))`
for every immediate child, in listing order. -/
def indexChildren :
    List (String × FsDir) → List (List (String × List String) × List String)
  | [] => []
  | (_, d) :: rest => indexDir d :: indexChildren rest

end

mutual

/-- Specification-side description of the per-category file list the
indexer should return: the contents of the category child when both
category folders are directly present, otherwise the concatenation of
the children's results in traversal order. -/
def catSpec (cat : String) : FsDir → List String
  | .node entries _fs =>
    if ROOT_DIRS.all (fun r => (entries.map Prod.fst).contains r) then
      childFiles entries cat
    else
      catSpecChildren cat entries

/-- Concatenation of `catSpec` over the children, in listing order. -/
def catSpecChildren (cat : String) : List (String × FsDir) → List String
  | [] => []
  | (_, d) :: rest => catSpec cat d ++ catSpecChildren cat rest

end

/-- The log messages produced by the both-folders-present branch: one
mismatch error when the two category folders disagree on file count. -/
def logsLeaf (entries : List (String × FsDir)) : List String :=
  if ((childFiles entries "json").length : Int) ≠
      ((childFiles entries "rgba").length : Int) then
    [mismatchMsg "json"]
  else []

mutual

/-- Specification-side description of the accumulated log messages. -/
def logsSpec : FsDir → List String
  | .node entries _fs =>
    if ROOT_DIRS.all (fun r => (entries.map Prod.fst).contains r) then
      logsLeaf entries
    else
      logsSpecChildren entries

/-- Concatenation of `logsSpec` over the children, in listing order. -/
def logsSpecChildren : List (String × FsDir) → List String
  | [] => []
  | (_, d) :: rest => logsSpec d ++ logsSpecChildren rest

end

-- ### Joint filtering (`Mocap._process_points`)

/-- A numeric array: a list of rows of rationals. -/
abbrev Mat : Type := List (List Rat)

/-- One record of the `joints` list of a frame's data dictionary; only
its `name` field is read. -/
structure Joint where
  name : String
  deriving DecidableEq

/-- The fields of the per-frame data dictionary the class reads:
`pts2d_fisheye` (stored 2 x J), `pts3d_fisheye` (stored 3 x J),
`joints`, and `action`. -/
structure AnnData where
  pts2d_fisheye : Mat
  pts3d_fisheye : Mat
  joints : List Joint
  action : String
  deriving DecidableEq

/-- Python `name.replace('mixamorig:', '')` on the character list:
every (non-overlapping, left-to-right) occurrence of the substring is
removed, wherever it occurs. -/
def stripTag : List Char → List Char
  | 'm' :: 'i' :: 'x' :: 'a' :: 'm' :: 'o' :: 'r' :: 'i' :: 'g' :: ':' :: rest =>
      stripTag rest
  | c :: rest => c :: stripTag rest
  | [] => []

/-- Python `name.replace('mixamorig:', '')`. -/
def stripName (s : String) : String :=
  String.mk (stripTag s.data)

/-- The dictionary comprehension
`{j['name'].replace('mixamorig:', ''): jid for jid, j in enumerate(data['joints'])}`:
later entries with an equal stripped name overwrite earlier ones. -/
def jointNames (js : List Joint) : List (String × Nat) :=
  js.enum.foldl (fun d p => dUpdate d (stripName p.2.name) p.1) []

/-- Specification-side description of `jointNames` lookup: the index of
the last enumerated joint whose stripped name equals the key. -/
def lastIdx (k : String) : List (Nat × Joint) → Option Nat
  | [] => none
  | (jid, j) :: rest =>
    match lastIdx k rest with
    | some i => some i
    | none => if stripName j.name = k then some jid else none

/-- The index of the last joint of `js` whose stripped name is `k`. -/
def lastStrippedIndex (js : List Joint) (k : String) : Option Nat :=
  lastIdx k js.enum

/-- `np.array(rows).T` for a rectangular array: column `i` of the input
becomes row `i` of the output (the width is read off the first row, and
`getD` padding is never reached on rectangular input). -/
def mtranspose (rows : Mat) : Mat :=
  match rows with
  | [] => []
  | r0 :: _ => (List.range r0.length).map (fun i => rows.map (fun r => r.getD i 0))

/-- The filtering loop of `Mocap._process_points`: for each skeleton
key in order, look the key up in the stripped-name dictionary (Python
`KeyError` when absent) and read that row of each transposed array
(Python `IndexError` when out of range). -/
def gatherRows (p2d_orig p3d_orig : Mat) (jn : List (String × Nat)) :
    List String → Except PyErr (Mat × Mat)
  | [] => .ok ([], [])
  | j :: rest =>
    match dGet jn j with
    | none => .error (.keyError j)
    | some i =>
      match p2d_orig[i]? with
      | none => .error .indexError
      | some r2 =>
        match p3d_orig[i]? with
        | none => .error .indexError
        | some r3 =>
          match gatherRows p2d_orig p3d_orig jn rest with
          | .error e => .error e
          | .ok (t2, t3) => .ok (r2 :: t2, r3 :: t3)

/-- `Mocap._process_points`: transpose the stored point arrays, build
the stripped-name dictionary, gather the rows of the skeleton's joints
in skeleton order, and divide the 3D array by `CM_TO_M`.  The skeleton
`skel` is the ordered key list of the external `config.skel` mapping. -/
def processPoints (skel : List String) (data : AnnData) :
    Except PyErr (Mat × Mat) :=
  let p2d_orig := mtranspose data.pts2d_fisheye
  let p3d_orig := mtranspose data.pts3d_fisheye
  let jn := jointNames data.joints
  match gatherRows p2d_orig p3d_orig jn skel with
  | .error e => .error e
  | .ok (p2d, p3d) =>
      .ok (p2d, p3d.map (fun row => row.map (fun v => v / (CM_TO_M : Rat))))

-- ### Per-sample access (`Mocap.__getitem__`, `Mocap.__len__`)

/-- Modelled from the spec: the `BaseDataset` constructor (the `base`
module is not among this repository's sources) stores the index "built
once at construction; immutable thereafter" (`self.index`, the result
of `index_db`, i.e. `_index_dir` of the dataset root) and the optional
transform hook (`self.transform`). -/
structure Dataset where
  index : List (String × List String)
  transform : Option (List (String × Mat) → List (String × Mat))

/-- The I/O the loader performs, as an explicit environment:
`sio.imread` (already `astype(np.float32)`, before the `/= 255.0`
normalization) and `io.read_json`; `none` models the underlying I/O
failure, which the class does not handle. -/
structure Env where
  imread : String → Option Mat
  read_json : String → Option AnnData

/-- One transform-hook call: pass a single-key dictionary to the hook
and read the value the returned dictionary holds under the same key. -/
def hookApply (t : List (String × Mat) → List (String × Mat))
    (k : String) (v : Mat) : Option Mat :=
  dGet (t [(k, v)]) k

/-- `Mocap.__getitem__`: read the image path at `i` of the `rgba` list
and load and normalize the image, read the data dictionary at `i` of
the `json` list, filter the points, and, when a transform is
configured, pass image, 3D points, and 2D points through it one at a
time, each wrapped in a single-key dictionary. -/
def getitem (env : Env) (skel : List String) (m : Dataset) (i : Nat) :
    Except PyErr (Mat × Mat × Mat × String) :=
  match dGet m.index "rgba" with
  | none => .error (.keyError "rgba")
  | some rgbaList =>
  match rgbaList[i]? with
  | none => .error .indexError
  | some img_path =>
  match env.imread img_path with
  | none => .error .ioError
  | some img0 =>
  let img := img0.map (fun row => row.map (fun vv => vv / 255))
  match dGet m.index "json" with
  | none => .error (.keyError "json")
  | some jsonList =>
  match jsonList[i]? with
  | none => .error .indexError
  | some json_path =>
  match env.read_json json_path with
  | none => .error .ioError
  | some data =>
  match processPoints skel data with
  | .error e => .error e
  | .ok (p2d, p3d) =>
  match m.transform with
  | none => .ok (img, p2d, p3d, data.action)
  | some t =>
  match hookApply t "image" img with
  | none => .error (.keyError "image")
  | some img2 =>
  match hookApply t "joints3D" p3d with
  | none => .error (.keyError "joints3D")
  | some p3d2 =>
  match hookApply t "joints2D" p2d with
  | none => .error (.keyError "joints2D")
  | some p2d2 => .ok (img2, p2d2, p3d2, data.action)

/-- `Mocap.__len__`: the length of the list stored under
`ROOT_DIRS[0]`; `none` models the raise on a missing key or index. -/
def lenMocap (m : Dataset) : Option Nat :=
  match ROOT_DIRS[0]? with
  | none => none
  | some r =>
  match dGet m.index r with
  | none => none
  | some l => some l.length

-- ### Dictionary computation lemmas

theorem dGet_dUpdate {α : Type} (d : List (String × α)) (k0 k : String)
    (v : α) :
    dGet (dUpdate d k0 v) k = if k = k0 then some v else dGet d k := by
  induction d with
  | nil =>
    by_cases h : k = k0
    · subst h; simp [dUpdate, dGet]
    · have h2 : ¬ k0 = k := fun hh => h hh.symm
      simp [dUpdate, dGet, h, h2]
  | cons p rest ih =>
    by_cases hp : p.1 = k0
    · by_cases hk : k = k0
      · subst hk; simp [dUpdate, dGet, hp]
      · have h2 : ¬ k0 = k := fun hh => hk hh.symm
        have hpk : ¬ p.1 = k := by rw [hp]; exact h2
        simp [dUpdate, dGet, hp, hk, h2, hpk]
    · by_cases hk : k = k0
      · subst hk
        simp [dUpdate, dGet, hp, ih]
      · simp [dUpdate, dGet, hp, hk, ih]

theorem dGet_pair_rgba (A B : List String) :
    dGet [("rgba", A), ("json", B)] "rgba" = some A := rfl

theorem dGet_pair_json (A B : List String) :
    dGet [("rgba", A), ("json", B)] "json" = some B := rfl

-- ### Indexer computation lemmas

theorem indexLeaf_eq (entries : List (String × FsDir)) :
    indexLeaf entries =
      ([("rgba", childFiles entries "rgba"),
        ("json", childFiles entries "json")],
       logsLeaf entries) := by
  have h : ¬ ((childFiles entries "rgba").length : Int) < 0 :=
    not_lt.mpr (Int.natCast_nonneg _)
  simp +decide [indexLeaf, ROOT_DIRS, dUpdate, logsLeaf, h]

theorem initPaths_eq : initPaths = [("rgba", []), ("json", [])] := rfl

theorem mergeChild_eq (A B : List String)
    (c : List (String × List String)) :
    mergeChild [("rgba", A), ("json", B)] c =
      [("rgba", A ++ (dGet c "rgba").getD []),
       ("json", B ++ (dGet c "json").getD [])] := by
  simp +decide [mergeChild, ROOT_DIRS, dUpdate, dGet]

theorem mergeAll_go (cs : List (List (String × List String) × List String))
    (A B L : List String) :
    cs.foldl (fun acc c => (mergeChild acc.1 c.1, acc.2 ++ c.2))
        ([("rgba", A), ("json", B)], L) =
      ([("rgba", A ++ (cs.map (fun c => (dGet c.1 "rgba").getD [])).flatten),
        ("json", B ++ (cs.map (fun c => (dGet c.1 "json").getD [])).flatten)],
       L ++ (cs.map Prod.snd).flatten) := by
  induction cs generalizing A B L with
  | nil => simp
  | cons c rest ih =>
    simp only [List.foldl_cons, mergeChild_eq, ih, List.map_cons,
      List.flatten_cons, List.append_assoc]

theorem mergeAll_eq (cs : List (List (String × List String) × List String)) :
    mergeAll cs =
      ([("rgba", (cs.map (fun c => (dGet c.1 "rgba").getD [])).flatten),
        ("json", (cs.map (fun c => (dGet c.1 "json").getD [])).flatten)],
       (cs.map Prod.snd).flatten) := by
  rw [mergeAll, initPaths_eq, mergeAll_go]
  simp

mutual

theorem indexDir_eq : (d : FsDir) →
    indexDir d = ([("rgba", catSpec "rgba" d), ("json", catSpec "json" d)],
      logsSpec d)
  | .node entries fs => by
    by_cases h : (ROOT_DIRS.all fun r => (entries.map Prod.fst).contains r) = true
    · simp only [indexDir, catSpec, logsSpec, h, if_true]
      exact indexLeaf_eq entries
    · simp only [indexDir, catSpec, logsSpec, h, if_false, Bool.false_eq_true]
      exact indexChildren_eq entries

theorem indexChildren_eq : (l : List (String × FsDir)) →
    mergeAll (indexChildren l) =
      ([("rgba", catSpecChildren "rgba" l),
        ("json", catSpecChildren "json" l)],
       logsSpecChildren l)
  | [] => by
    simp [indexChildren, catSpecChildren, logsSpecChildren, mergeAll_eq]
  | (n, d) :: rest => by
    have hd := indexDir_eq d
    have hr := indexChildren_eq rest
    rw [mergeAll_eq] at hr ⊢
    have h1 := congrArg (fun p => dGet p.1 "rgba") hr
    have h2 := congrArg (fun p => dGet p.1 "json") hr
    have h3 := congrArg Prod.snd hr
    simp only [dGet_pair_rgba, dGet_pair_json, Option.some.injEq] at h1 h2
    simp only at h3
    simp only [indexChildren, List.map_cons, List.flatten_cons, hd,
      dGet_pair_rgba, dGet_pair_json, Option.getD_some, h1, h2, h3,
      catSpecChildren, logsSpecChildren]

end

mutual

theorem catLen_eq : (d : FsDir) → logsSpec d = [] →
    (catSpec "rgba" d).length = (catSpec "json" d).length
  | .node entries fs => fun h => by
    by_cases hc : (ROOT_DIRS.all fun r => (entries.map Prod.fst).contains r) = true
    · simp only [logsSpec, hc, if_true] at h
      simp only [catSpec, hc, if_true]
      by_cases hm : ((childFiles entries "json").length : Int) ≠
          ((childFiles entries "rgba").length : Int)
      · simp [logsLeaf, hm] at h
      · push_neg at hm
        exact_mod_cast hm.symm
    · simp only [logsSpec, hc, if_false, Bool.false_eq_true] at h
      simp only [catSpec, hc, if_false, Bool.false_eq_true]
      exact catLenChildren_eq entries h

theorem catLenChildren_eq : (l : List (String × FsDir)) →
    logsSpecChildren l = [] →
    (catSpecChildren "rgba" l).length = (catSpecChildren "json" l).length
  | [] => fun _ => rfl
  | (n, d) :: rest => fun h => by
    simp only [logsSpecChildren, List.append_eq_nil] at h
    simp only [catSpecChildren, List.length_append, catLen_eq d h.1,
      catLenChildren_eq rest h.2]

end

-- ### Claims about the directory indexer

/-- **C1**: for every directory, if its immediate subdirectories include
both category folders `rgba` and `json`, the indexer records exactly
those two folders' file lists and does not recurse further (the result
is determined by the two children's direct file lists); otherwise it
recurses into each immediate child and concatenates the per-category
results in traversal order; in particular a directory with no children
(and hence neither category folder) contributes empty lists for both
categories and no logs. -/
theorem c1_indexer_recursion :
    (∀ (entries : List (String × FsDir)) (files : List String),
      (indexDir (.node entries files)).1 =
        if ROOT_DIRS.all (fun r => (entries.map Prod.fst).contains r) then
          [("rgba", childFiles entries "rgba"),
           ("json", childFiles entries "json")]
        else
          [("rgba", catSpecChildren "rgba" entries),
           ("json", catSpecChildren "json" entries)]) ∧
    (∀ files : List String,
      indexDir (.node [] files) = ([("rgba", []), ("json", [])], [])) := by
  constructor
  · intro entries files
    rw [indexDir_eq]
    by_cases h : (ROOT_DIRS.all fun r => (entries.map Prod.fst).contains r) = true
    · simp only [catSpec, h, if_true]
    · simp only [catSpec, h, if_false, Bool.false_eq_true]
  · intro files
    rfl

/-- **C2, counterexample**: a tree whose two category folders hold one
file and no file respectively is indexed — with a log, but without
failing — into per-category lists of unequal length, refuting the
claim that the index maps the two categories to equal-length sequences
for every directory tree. -/
theorem c2_counterexample :
    ((dGet (indexDir (.node [("rgba", .node [] ["f"]),
        ("json", .node [] [])] [])).1 "rgba").getD []).length ≠
    ((dGet (indexDir (.node [("rgba", .node [] ["f"]),
        ("json", .node [] [])] [])).1 "json").getD []).length := by
  decide

/-- **C2 (amended)**: for every directory tree **whose indexing logs no
mismatch error**, the index maps the two category names to path
sequences of equal length, and each per-category sequence is exactly
the concatenation, in traversal order, of the directory-listing file
lists of the matched folders (`catSpec`), so the two sequences are
positionally aligned. -/
theorem c2_aligned_index (d : FsDir) (h : (indexDir d).2 = []) :
    dGet (indexDir d).1 "rgba" = some (catSpec "rgba" d) ∧
    dGet (indexDir d).1 "json" = some (catSpec "json" d) ∧
    (catSpec "rgba" d).length = (catSpec "json" d).length := by
  rw [indexDir_eq] at h ⊢
  exact ⟨rfl, rfl, catLen_eq d h⟩

/-- Witness for C2 (amended) on a two-branch tree with matched
subfolders at different nesting depths. -/
theorem c2_aligned_index_witness :
    ((indexDir (.node [("seq1", .node [("rgba", .node [] ["r1", "r2"]),
        ("json", .node [] ["j1", "j2"])] []), ("extra", .node [] [])] [])).2
      = []) ∧
    (dGet (indexDir (.node [("seq1", .node [("rgba", .node [] ["r1", "r2"]),
        ("json", .node [] ["j1", "j2"])] []), ("extra", .node [] [])] [])).1
        "rgba" =
      some (catSpec "rgba" (.node [("seq1", .node [("rgba", .node [] ["r1", "r2"]),
        ("json", .node [] ["j1", "j2"])] []), ("extra", .node [] [])] [])) ∧
    dGet (indexDir (.node [("seq1", .node [("rgba", .node [] ["r1", "r2"]),
        ("json", .node [] ["j1", "j2"])] []), ("extra", .node [] [])] [])).1
        "json" =
      some (catSpec "json" (.node [("seq1", .node [("rgba", .node [] ["r1", "r2"]),
        ("json", .node [] ["j1", "j2"])] []), ("extra", .node [] [])] [])) ∧
    (catSpec "rgba" (.node [("seq1", .node [("rgba", .node [] ["r1", "r2"]),
        ("json", .node [] ["j1", "j2"])] []), ("extra", .node [] [])] [])).length =
      (catSpec "json" (.node [("seq1", .node [("rgba", .node [] ["r1", "r2"]),
        ("json", .node [] ["j1", "j2"])] []), ("extra", .node [] [])] [])).length) :=
  ⟨by decide,
   c2_aligned_index (.node [("seq1", .node [("rgba", .node [] ["r1", "r2"]),
     ("json", .node [] ["j1", "j2"])] []), ("extra", .node [] [])] []) (by decide)⟩

/-- **C6**: when both category folders are directly present but hold
differing numbers of files, indexing that directory returns normally
(it is a total function into the pair), records both unequal-length
file lists in the index, and appends exactly the mismatch error
message to the log. -/
theorem c6_mismatch_logged (entries : List (String × FsDir))
    (files : List String)
    (hboth : (ROOT_DIRS.all fun r => (entries.map Prod.fst).contains r) = true)
    (hmis : (childFiles entries "json").length ≠
      (childFiles entries "rgba").length) :
    indexDir (.node entries files) =
      ([("rgba", childFiles entries "rgba"),
        ("json", childFiles entries "json")],
       [mismatchMsg "json"]) := by
  rw [indexDir_eq]
  have hmis2 : ((childFiles entries "json").length : Int) ≠
      ((childFiles entries "rgba").length : Int) := by exact_mod_cast hmis
  simp only [catSpec, logsSpec, hboth, if_true, logsLeaf]
  rw [if_pos hmis2]

/-- Witness for C6: `rgba` holds two files, `json` one. -/
theorem c6_mismatch_logged_witness :
    ((ROOT_DIRS.all fun r =>
      (([("rgba", FsDir.node [] ["a", "b"]), ("json", FsDir.node [] ["c"])].map
        Prod.fst).contains r)) = true) ∧
    ((childFiles [("rgba", FsDir.node [] ["a", "b"]),
        ("json", FsDir.node [] ["c"])] "json").length ≠
      (childFiles [("rgba", FsDir.node [] ["a", "b"]),
        ("json", FsDir.node [] ["c"])] "rgba").length) ∧
    indexDir (.node [("rgba", FsDir.node [] ["a", "b"]),
        ("json", FsDir.node [] ["c"])] []) =
      ([("rgba", childFiles [("rgba", FsDir.node [] ["a", "b"]),
          ("json", FsDir.node [] ["c"])] "rgba"),
        ("json", childFiles [("rgba", FsDir.node [] ["a", "b"]),
          ("json", FsDir.node [] ["c"])] "json")],
       [mismatchMsg "json"]) :=
  ⟨by decide, by decide,
   c6_mismatch_logged [("rgba", FsDir.node [] ["a", "b"]),
     ("json", FsDir.node [] ["c"])] [] (by decide) (by decide)⟩

/-- **C7**: for every dataset whose index was built by the recursive
indexer (whatever the transform), the reported sample count is the
length of the `rgba` path list of the index — the `json` list's length
plays no part. -/
theorem c7_len_rgba (d : FsDir)
    (t : Option (List (String × Mat) → List (String × Mat))) :
    lenMocap { index := (indexDir d).1, transform := t } =
      (dGet (indexDir d).1 "rgba").map List.length := by
  rw [indexDir_eq]
  rfl

/-- **C9**: every result of the recursive indexer is a dictionary whose
keys are exactly `ROOT_DIRS = ["rgba", "json"]`, in that order, each
bound to a (possibly empty) list — in the base case and in the
recursive case alike, which is what makes reading both keys of every
child's result total. -/
theorem c9_index_keys (d : FsDir) :
    ((indexDir d).1).map Prod.fst = ROOT_DIRS := by
  rw [indexDir_eq]
  rfl

-- ### Joint-filter computation lemmas

theorem dGet_mem {α : Type} (d : List (String × α)) (k : String) (v : α)
    (h : dGet d k = some v) : (k, v) ∈ d := by
  induction d with
  | nil => simp [dGet] at h
  | cons p rest ih =>
    obtain ⟨a, b⟩ := p
    by_cases hp : a = k
    · subst hp
      simp [dGet] at h
      subst h
      exact List.mem_cons_self _ _
    · simp only [dGet, if_neg hp] at h
      exact List.mem_cons_of_mem _ (ih h)

theorem mtranspose_length (r0 : List Rat) (rs : Mat) :
    (mtranspose (r0 :: rs)).length = r0.length := by
  simp [mtranspose]

theorem mtranspose_getElem (r0 : List Rat) (rs : Mat) (i : Nat)
    (h : i < r0.length) :
    (mtranspose (r0 :: rs))[i]? = some ((r0 :: rs).map (fun r => r.getD i 0)) := by
  simp [mtranspose, List.getElem?_map, List.getElem?_range, h]

theorem gatherRows_ok (p2 p3 : Mat) (jn : List (String × Nat)) :
    ∀ skel : List String,
    (∀ j ∈ skel, ∃ i, dGet jn j = some i ∧ i < p2.length ∧ i < p3.length) →
    ∃ t2 t3, gatherRows p2 p3 jn skel = .ok (t2, t3) ∧
      t2.length = skel.length ∧ t3.length = skel.length ∧
      (∀ (k : Nat) (j : String), skel[k]? = some j →
        ∀ i, dGet jn j = some i → t2[k]? = p2[i]? ∧ t3[k]? = p3[i]?)
  | [], _ => ⟨[], [], rfl, rfl, rfl, by intro k j hk; simp at hk⟩
  | j0 :: rest, hcov => by
    obtain ⟨i0, hj0, hi2, hi3⟩ := hcov j0 (List.mem_cons_self j0 rest)
    obtain ⟨t2, t3, hg, hl2, hl3, hidx⟩ :=
      gatherRows_ok p2 p3 jn rest
        (fun j hj => hcov j (List.mem_cons_of_mem j0 hj))
    have h2 : p2[i0]? = some p2[i0] := List.getElem?_eq_getElem hi2
    have h3 : p3[i0]? = some p3[i0] := List.getElem?_eq_getElem hi3
    refine ⟨p2[i0] :: t2, p3[i0] :: t3, ?_, by simp [hl2], by simp [hl3], ?_⟩
    · simp only [gatherRows, hj0, h2, h3, hg]
    · intro k j hk i hi
      match k with
      | 0 =>
        simp only [List.getElem?_cons_zero, Option.some.injEq] at hk
        subst hk
        rw [hj0] at hi
        injection hi with hi
        subst hi
        exact ⟨by simp [h2], by simp [h3]⟩
      | Nat.succ k2 =>
        simp only [List.getElem?_cons_succ] at hk ⊢
        exact hidx k2 j hk i hi

theorem gatherRows_err (p2 p3 : Mat) (jn : List (String × Nat)) :
    ∀ skel : List String,
    (∃ j ∈ skel, dGet jn j = none) →
    ∃ e, gatherRows p2 p3 jn skel = .error e ∧
      ((∃ k, e = PyErr.keyError k) ∨ e = PyErr.indexError)
  | [], hmiss => by simp at hmiss
  | j0 :: rest, hmiss => by
    cases h0 : dGet jn j0 with
    | none =>
      exact ⟨.keyError j0, by simp only [gatherRows, h0], Or.inl ⟨j0, rfl⟩⟩
    | some i0 =>
      have hmiss2 : ∃ j ∈ rest, dGet jn j = none := by
        obtain ⟨j, hj, hjn⟩ := hmiss
        rcases List.mem_cons.mp hj with rfl | hj2
        · rw [h0] at hjn; exact absurd hjn (by simp)
        · exact ⟨j, hj2, hjn⟩
      cases h2 : p2[i0]? with
      | none =>
        exact ⟨.indexError, by simp only [gatherRows, h0, h2], Or.inr rfl⟩
      | some r2 =>
        cases h3 : p3[i0]? with
        | none =>
          exact ⟨.indexError, by simp only [gatherRows, h0, h2, h3], Or.inr rfl⟩
        | some r3 =>
          obtain ⟨e, he, hkind⟩ := gatherRows_err p2 p3 jn rest hmiss2
          exact ⟨e, by simp only [gatherRows, h0, h2, h3, he], hkind⟩

theorem jointNames_foldl (l : List (Nat × Joint)) :
    ∀ (d : List (String × Nat)) (k : String),
    dGet (l.foldl (fun d p => dUpdate d (stripName p.2.name) p.1) d) k =
      match lastIdx k l with
      | some i => some i
      | none => dGet d k := by
  induction l with
  | nil => intro d k; rfl
  | cons p rest ih =>
    intro d k
    obtain ⟨jid, j⟩ := p
    simp only [List.foldl_cons, ih, lastIdx]
    cases hrest : lastIdx k rest with
    | some i => rfl
    | none =>
      simp only
      by_cases hs : stripName j.name = k
      · simp [hs, dGet_dUpdate]
      · have hks : ¬ k = stripName j.name := fun hh => hs hh.symm
        simp [hs, dGet_dUpdate, hks]

theorem getD_map_div (row : List Rat) (q : Rat) :
    ∀ c : Nat, (row.map (fun vv => vv / q)).getD c 0 = row.getD c 0 / q := by
  induction row with
  | nil => intro c; simp [zero_div]
  | cons a rest ih =>
    intro c
    cases c with
    | zero => simp
    | succ c2 =>
      simp only [List.map_cons, List.getD_cons_succ]
      exact ih c2

theorem getD_map_mat (l : Mat) (f : List Rat → List Rat) (hf : f [] = []) :
    ∀ k : Nat, (l.map f).getD k [] = f (l.getD k []) := by
  induction l with
  | nil => intro k; simp [hf]
  | cons r rest ih =>
    intro k
    cases k with
    | zero => simp
    | succ k2 =>
      simp only [List.map_cons, List.getD_cons_succ]
      exact ih k2

-- ### Claims about the joint filter

/-- **C3**: on an annotation whose raw arrays are rectangular (2 x n and
3 x n) and whose stripped joint names cover every skeleton key (with
in-range stored indices), the filter succeeds with arrays of `skel`
many rows, and row `k` of each output is the transposed raw point —
the column of the stored array — of the joint whose stripped name is
the `k`-th skeleton key (the 3D row carrying the `CM_TO_M` division
applied by the same routine), independently of the order of the raw
`joints` list. -/
theorem c3_joint_filter (skel : List String) (data : AnnData)
    (u v x y z : List Rat) (n : Nat)
    (h2d : data.pts2d_fisheye = [u, v])
    (h3d : data.pts3d_fisheye = [x, y, z])
    (hu : u.length = n) (hv : v.length = n)
    (hx : x.length = n) (hy : y.length = n) (hz : z.length = n)
    (hcov : ∀ j ∈ skel, (dGet (jointNames data.joints) j).isSome)
    (hrange : ∀ p ∈ jointNames data.joints, p.2 < n) :
    ∃ p2d p3d, processPoints skel data = .ok (p2d, p3d) ∧
      p2d.length = skel.length ∧ p3d.length = skel.length ∧
      (∀ (k : Nat) (j : String), skel[k]? = some j →
        ∀ i, dGet (jointNames data.joints) j = some i →
          p2d[k]? = some [u.getD i 0, v.getD i 0] ∧
          p3d[k]? = some [x.getD i 0 / (CM_TO_M : Rat),
            y.getD i 0 / (CM_TO_M : Rat), z.getD i 0 / (CM_TO_M : Rat)]) := by
  have hP2len : (mtranspose data.pts2d_fisheye).length = n := by
    rw [h2d, mtranspose_length, hu]
  have hP3len : (mtranspose data.pts3d_fisheye).length = n := by
    rw [h3d, mtranspose_length, hx]
  have hcov2 : ∀ j ∈ skel, ∃ i, dGet (jointNames data.joints) j = some i ∧
      i < (mtranspose data.pts2d_fisheye).length ∧
      i < (mtranspose data.pts3d_fisheye).length := by
    intro j hj
    obtain ⟨i, hi⟩ := Option.isSome_iff_exists.mp (hcov j hj)
    have hin : i < n := hrange _ (dGet_mem _ _ _ hi)
    exact ⟨i, hi, by rw [hP2len]; exact hin, by rw [hP3len]; exact hin⟩
  obtain ⟨t2, t3, hg, hl2, hl3, hidx⟩ :=
    gatherRows_ok (mtranspose data.pts2d_fisheye)
      (mtranspose data.pts3d_fisheye) (jointNames data.joints) skel hcov2
  refine ⟨t2, t3.map (fun row => row.map (fun vv => vv / (CM_TO_M : Rat))),
    ?_, hl2, by simp [hl3], ?_⟩
  · simp only [processPoints, hg]
  · intro k j hk i hi
    obtain ⟨e2, e3⟩ := hidx k j hk i hi
    have hin : i < n := hrange _ (dGet_mem _ _ _ hi)
    constructor
    · rw [e2, h2d, mtranspose_getElem u [v] i (by rw [hu]; exact hin)]
      rfl
    · rw [List.getElem?_map, e3, h3d,
        mtranspose_getElem x [y, z] i (by rw [hx]; exact hin)]
      rfl

/-- Witness for C3: a skeleton of three named joints, raw joints in a
different order with a prefixed subset of names. -/
theorem c3_joint_filter_witness :
    ((AnnData.mk [[1, 2, 3], [4, 5, 6]]
        [[10, 20, 30], [40, 50, 60], [70, 80, 90]]
        [⟨"mixamorig:Neck"⟩, ⟨"Head"⟩, ⟨"mixamorig:Hips"⟩]
        "walk").pts2d_fisheye = [[1, 2, 3], [4, 5, 6]]) ∧
    ((AnnData.mk [[1, 2, 3], [4, 5, 6]]
        [[10, 20, 30], [40, 50, 60], [70, 80, 90]]
        [⟨"mixamorig:Neck"⟩, ⟨"Head"⟩, ⟨"mixamorig:Hips"⟩]
        "walk").pts3d_fisheye = [[10, 20, 30], [40, 50, 60], [70, 80, 90]]) ∧
    (∀ j ∈ ["Hips", "Neck", "Head"],
      (dGet (jointNames (AnnData.mk [[1, 2, 3], [4, 5, 6]]
        [[10, 20, 30], [40, 50, 60], [70, 80, 90]]
        [⟨"mixamorig:Neck"⟩, ⟨"Head"⟩, ⟨"mixamorig:Hips"⟩]
        "walk").joints) j).isSome) ∧
    (∀ p ∈ jointNames (AnnData.mk [[1, 2, 3], [4, 5, 6]]
        [[10, 20, 30], [40, 50, 60], [70, 80, 90]]
        [⟨"mixamorig:Neck"⟩, ⟨"Head"⟩, ⟨"mixamorig:Hips"⟩]
        "walk").joints, p.2 < 3) ∧
    (∃ p2d p3d, processPoints ["Hips", "Neck", "Head"]
        (AnnData.mk [[1, 2, 3], [4, 5, 6]]
          [[10, 20, 30], [40, 50, 60], [70, 80, 90]]
          [⟨"mixamorig:Neck"⟩, ⟨"Head"⟩, ⟨"mixamorig:Hips"⟩]
          "walk") = .ok (p2d, p3d) ∧
      p2d.length = (["Hips", "Neck", "Head"] : List String).length ∧
      p3d.length = (["Hips", "Neck", "Head"] : List String).length ∧
      (∀ (k : Nat) (j : String), (["Hips", "Neck", "Head"] : List String)[k]? = some j →
        ∀ i, dGet (jointNames (AnnData.mk [[1, 2, 3], [4, 5, 6]]
            [[10, 20, 30], [40, 50, 60], [70, 80, 90]]
            [⟨"mixamorig:Neck"⟩, ⟨"Head"⟩, ⟨"mixamorig:Hips"⟩]
            "walk").joints) j = some i →
          p2d[k]? = some [([1, 2, 3] : List Rat).getD i 0,
            ([4, 5, 6] : List Rat).getD i 0] ∧
          p3d[k]? = some [([10, 20, 30] : List Rat).getD i 0 / (CM_TO_M : Rat),
            ([40, 50, 60] : List Rat).getD i 0 / (CM_TO_M : Rat),
            ([70, 80, 90] : List Rat).getD i 0 / (CM_TO_M : Rat)])) :=
  ⟨rfl, rfl, by decide, by decide,
   c3_joint_filter ["Hips", "Neck", "Head"]
     (AnnData.mk [[1, 2, 3], [4, 5, 6]]
       [[10, 20, 30], [40, 50, 60], [70, 80, 90]]
       [⟨"mixamorig:Neck"⟩, ⟨"Head"⟩, ⟨"mixamorig:Hips"⟩]
       "walk")
     [1, 2, 3] [4, 5, 6] [10, 20, 30] [40, 50, 60] [70, 80, 90] 3
     rfl rfl rfl rfl rfl rfl rfl (by decide) (by decide)⟩

/-- **C4**: whenever the row-gathering step succeeds, the filter
returns the gathered 2D rows unscaled, while every coordinate of the
returned 3D array is the corresponding raw coordinate divided by the
constant `CM_TO_M = 100`; in particular a raw value of `150`
centimeters maps to `3 / 2 = 1.5` meters. -/
theorem c4_unit_conversion (skel : List String) (data : AnnData)
    (raw2 raw3 : Mat)
    (h : gatherRows (mtranspose data.pts2d_fisheye)
        (mtranspose data.pts3d_fisheye) (jointNames data.joints) skel =
      .ok (raw2, raw3)) :
    processPoints skel data =
      .ok (raw2, raw3.map (fun row => row.map (fun vv => vv / (CM_TO_M : Rat)))) ∧
    (∀ k c : Nat,
      ((raw3.map (fun row => row.map (fun vv => vv / (CM_TO_M : Rat)))).getD
          k []).getD c 0 =
        (raw3.getD k []).getD c 0 / (CM_TO_M : Rat)) ∧
    (150 : Rat) / (CM_TO_M : Rat) = 3 / 2 := by
  refine ⟨by simp only [processPoints, h], ?_, by norm_num [CM_TO_M]⟩
  intro k c
  rw [getD_map_mat raw3 _ (by simp), getD_map_div]

/-- Witness for C4: the raw 3D coordinate `150` becomes `3 / 2`. -/
theorem c4_unit_conversion_witness :
    (gatherRows (mtranspose (AnnData.mk [[7], [8]] [[150], [250], [300]]
        [⟨"A"⟩] "a").pts2d_fisheye)
      (mtranspose (AnnData.mk [[7], [8]] [[150], [250], [300]]
        [⟨"A"⟩] "a").pts3d_fisheye)
      (jointNames (AnnData.mk [[7], [8]] [[150], [250], [300]]
        [⟨"A"⟩] "a").joints) ["A"] = .ok ([[7, 8]], [[150, 250, 300]])) ∧
    (processPoints ["A"] (AnnData.mk [[7], [8]] [[150], [250], [300]]
        [⟨"A"⟩] "a") =
      .ok ([[7, 8]], ([[150, 250, 300]] : Mat).map
        (fun row => row.map (fun vv => vv / (CM_TO_M : Rat)))) ∧
    (∀ k c : Nat,
      ((([[150, 250, 300]] : Mat).map
          (fun row => row.map (fun vv => vv / (CM_TO_M : Rat)))).getD
          k []).getD c 0 =
        (([[150, 250, 300]] : Mat).getD k []).getD c 0 / (CM_TO_M : Rat)) ∧
    (150 : Rat) / (CM_TO_M : Rat) = 3 / 2) :=
  ⟨rfl,
   c4_unit_conversion ["A"]
     (AnnData.mk [[7], [8]] [[150], [250], [300]] [⟨"A"⟩] "a")
     [[7, 8]] [[150, 250, 300]] rfl⟩

/-- **C5**: when a skeleton key is absent from the stripped joint-name
dictionary (and the stored indices of the present names are in range),
the filter fails with a `KeyError`, and the whole sample access fails
with that very error — no partial result is returned and nothing
catches it inside the class. -/
theorem c5_missing_joint_aborts (env : Env) (skel : List String)
    (m : Dataset) (i : Nat) (ra ja : List String) (ip jp : String)
    (img0 : Mat) (data : AnnData)
    (h1 : dGet m.index "rgba" = some ra) (h2 : ra[i]? = some ip)
    (h3 : env.imread ip = some img0)
    (h4 : dGet m.index "json" = some ja) (h5 : ja[i]? = some jp)
    (h6 : env.read_json jp = some data)
    (hmiss : ∃ j ∈ skel, dGet (jointNames data.joints) j = none) :
    ∃ e, processPoints skel data = .error e ∧
      getitem env skel m i = .error e ∧
      ((∃ k, e = PyErr.keyError k) ∨ e = PyErr.indexError) := by
  obtain ⟨e, he, hkind⟩ :=
    gatherRows_err (mtranspose data.pts2d_fisheye)
      (mtranspose data.pts3d_fisheye) (jointNames data.joints) skel hmiss
  have hp : processPoints skel data = .error e := by
    simp only [processPoints, he]
  exact ⟨e, hp, by simp only [getitem, h1, h2, h3, h4, h5, h6, hp], hkind⟩

/-- Witness for C5: the skeleton requires a joint name `Gone` that the
annotation does not provide. -/
theorem c5_missing_joint_aborts_witness :
    (dGet (Dataset.mk [("rgba", ["i0"]), ("json", ["j0"])] none).index
      "rgba" = some ["i0"]) ∧
    ((["i0"] : List String)[0]? = some "i0") ∧
    ((Env.mk (fun p => if p = "i0" then some [[0]] else none)
      (fun p => if p = "j0" then some (AnnData.mk [[1], [2]] [[3], [4], [5]]
        [⟨"mixamorig:Hips"⟩] "sit") else none)).imread "i0" = some [[0]]) ∧
    (dGet (Dataset.mk [("rgba", ["i0"]), ("json", ["j0"])] none).index
      "json" = some ["j0"]) ∧
    ((["j0"] : List String)[0]? = some "j0") ∧
    ((Env.mk (fun p => if p = "i0" then some [[0]] else none)
      (fun p => if p = "j0" then some (AnnData.mk [[1], [2]] [[3], [4], [5]]
        [⟨"mixamorig:Hips"⟩] "sit") else none)).read_json "j0" =
      some (AnnData.mk [[1], [2]] [[3], [4], [5]] [⟨"mixamorig:Hips"⟩] "sit")) ∧
    (∃ j ∈ (["Hips", "Gone"] : List String),
      dGet (jointNames (AnnData.mk [[1], [2]] [[3], [4], [5]]
        [⟨"mixamorig:Hips"⟩] "sit").joints) j = none) ∧
    (∃ e, processPoints ["Hips", "Gone"] (AnnData.mk [[1], [2]] [[3], [4], [5]]
        [⟨"mixamorig:Hips"⟩] "sit") = .error e ∧
      getitem (Env.mk (fun p => if p = "i0" then some [[0]] else none)
          (fun p => if p = "j0" then some (AnnData.mk [[1], [2]] [[3], [4], [5]]
            [⟨"mixamorig:Hips"⟩] "sit") else none))
        ["Hips", "Gone"]
        (Dataset.mk [("rgba", ["i0"]), ("json", ["j0"])] none) 0 = .error e ∧
      ((∃ k, e = PyErr.keyError k) ∨ e = PyErr.indexError)) :=
  ⟨by decide, by decide, by decide, by decide, by decide, by decide,
   by decide,
   c5_missing_joint_aborts
     (Env.mk (fun p => if p = "i0" then some [[0]] else none)
       (fun p => if p = "j0" then some (AnnData.mk [[1], [2]] [[3], [4], [5]]
         [⟨"mixamorig:Hips"⟩] "sit") else none))
     ["Hips", "Gone"]
     (Dataset.mk [("rgba", ["i0"]), ("json", ["j0"])] none) 0
     ["i0"] ["j0"] "i0" "j0" [[0]]
     (AnnData.mk [[1], [2]] [[3], [4], [5]] [⟨"mixamorig:Hips"⟩] "sit")
     (by decide) (by decide) (by decide) (by decide) (by decide) (by decide)
     (by decide)⟩

/-- **C10**: the joint-name normalization removes every occurrence of
the substring `mixamorig:` anywhere in the name — not only a leading
prefix — and when two raw joints strip to the same name the dictionary
keeps the index of the later joint of the enumeration, which the
filter then silently uses. -/
theorem c10_strip_last_wins :
    (∀ (js : List Joint) (k : String),
      dGet (jointNames js) k = lastStrippedIndex js k) ∧
    stripName "Neckmixamorig:01" = "Neck01" ∧
    stripName "mixamorig:Spinemixamorig:1" = "Spine1" ∧
    dGet (jointNames [⟨"mixamorig:Hips"⟩, ⟨"Hips"⟩]) "Hips" = some 1 := by
  refine ⟨?_, by decide, by decide, by decide⟩
  intro js k
  rw [jointNames, lastStrippedIndex, jointNames_foldl]
  cases lastIdx k js.enum <;> rfl

-- ### Claim about the transform hooks

/-- **C8**: on a successful sample access, a configured transform hook
is applied independently to the normalized image, the 3D joints, and
the 2D joints — each call receiving a single-key dictionary
(`image` / `joints3D` / `joints2D`) whose value under that same key is
extracted — while with no hook configured the image and the joint
arrays are returned as computed, unmodified. -/
theorem c8_transform_hooks (env : Env) (skel : List String)
    (ix : List (String × List String)) (i : Nat)
    (t : List (String × Mat) → List (String × Mat))
    (ra ja : List String) (ip jp : String) (img0 : Mat) (data : AnnData)
    (p2d p3d imgT p2dT p3dT : Mat)
    (h1 : dGet ix "rgba" = some ra) (h2 : ra[i]? = some ip)
    (h3 : env.imread ip = some img0)
    (h4 : dGet ix "json" = some ja) (h5 : ja[i]? = some jp)
    (h6 : env.read_json jp = some data)
    (h7 : processPoints skel data = .ok (p2d, p3d))
    (hti : hookApply t "image"
      (img0.map (fun row => row.map (fun vv => vv / 255))) = some imgT)
    (ht3 : hookApply t "joints3D" p3d = some p3dT)
    (ht2 : hookApply t "joints2D" p2d = some p2dT) :
    getitem env skel ⟨ix, some t⟩ i = .ok (imgT, p2dT, p3dT, data.action) ∧
    getitem env skel ⟨ix, none⟩ i =
      .ok (img0.map (fun row => row.map (fun vv => vv / 255)), p2d, p3d,
        data.action) := by
  constructor
  · simp only [getitem, h1, h2, h3, h4, h5, h6, h7, hti, ht3, ht2]
  · simp only [getitem, h1, h2, h3, h4, h5, h6, h7]

/-- Witness for C8: a doubling hook applied to a one-pixel image and a
one-joint skeleton. -/
theorem c8_transform_hooks_witness :
    (dGet [("rgba", ["i0"]), ("json", ["j0"])] "rgba" = some ["i0"]) ∧
    ((["i0"] : List String)[0]? = some "i0") ∧
    ((Env.mk (fun p => if p = "i0" then some [[255, 510]] else none)
      (fun p => if p = "j0" then some (AnnData.mk [[1], [2]] [[3], [4], [5]]
        [⟨"A"⟩] "run") else none)).imread "i0" = some [[255, 510]]) ∧
    (dGet [("rgba", ["i0"]), ("json", ["j0"])] "json" = some ["j0"]) ∧
    ((["j0"] : List String)[0]? = some "j0") ∧
    ((Env.mk (fun p => if p = "i0" then some [[255, 510]] else none)
      (fun p => if p = "j0" then some (AnnData.mk [[1], [2]] [[3], [4], [5]]
        [⟨"A"⟩] "run") else none)).read_json "j0" =
      some (AnnData.mk [[1], [2]] [[3], [4], [5]] [⟨"A"⟩] "run")) ∧
    (processPoints ["A"] (AnnData.mk [[1], [2]] [[3], [4], [5]] [⟨"A"⟩] "run") =
      .ok ([[1, 2]], ([[3, 4, 5]] : Mat).map
        (fun row => row.map (fun vv => vv / (CM_TO_M : Rat))))) ∧
    (hookApply (fun dct => dct.map
        (fun p => (p.1, p.2.map (fun row => row.map (fun vv => vv * 2)))))
      "image" (([[255, 510]] : Mat).map
        (fun row => row.map (fun vv => vv / 255))) =
      some ((([[255, 510]] : Mat).map
        (fun row => row.map (fun vv => vv / 255))).map
        (fun row => row.map (fun vv => vv * 2)))) ∧
    (hookApply (fun dct => dct.map
        (fun p => (p.1, p.2.map (fun row => row.map (fun vv => vv * 2)))))
      "joints3D" (([[3, 4, 5]] : Mat).map
        (fun row => row.map (fun vv => vv / (CM_TO_M : Rat)))) =
      some ((([[3, 4, 5]] : Mat).map
        (fun row => row.map (fun vv => vv / (CM_TO_M : Rat)))).map
        (fun row => row.map (fun vv => vv * 2)))) ∧
    (hookApply (fun dct => dct.map
        (fun p => (p.1, p.2.map (fun row => row.map (fun vv => vv * 2)))))
      "joints2D" [[1, 2]] =
      some (([[1, 2]] : Mat).map (fun row => row.map (fun vv => vv * 2)))) ∧
    (getitem (Env.mk (fun p => if p = "i0" then some [[255, 510]] else none)
        (fun p => if p = "j0" then some (AnnData.mk [[1], [2]] [[3], [4], [5]]
          [⟨"A"⟩] "run") else none)) ["A"]
      ⟨[("rgba", ["i0"]), ("json", ["j0"])],
       some (fun dct => dct.map
        (fun p => (p.1, p.2.map (fun row => row.map (fun vv => vv * 2)))))⟩ 0 =
      .ok ((([[255, 510]] : Mat).map
          (fun row => row.map (fun vv => vv / 255))).map
          (fun row => row.map (fun vv => vv * 2)),
        ([[1, 2]] : Mat).map (fun row => row.map (fun vv => vv * 2)),
        (([[3, 4, 5]] : Mat).map
          (fun row => row.map (fun vv => vv / (CM_TO_M : Rat)))).map
          (fun row => row.map (fun vv => vv * 2)),
        "run") ∧
    getitem (Env.mk (fun p => if p = "i0" then some [[255, 510]] else none)
        (fun p => if p = "j0" then some (AnnData.mk [[1], [2]] [[3], [4], [5]]
          [⟨"A"⟩] "run") else none)) ["A"]
      ⟨[("rgba", ["i0"]), ("json", ["j0"])], none⟩ 0 =
      .ok (([[255, 510]] : Mat).map (fun row => row.map (fun vv => vv / 255)),
        [[1, 2]],
        ([[3, 4, 5]] : Mat).map
          (fun row => row.map (fun vv => vv / (CM_TO_M : Rat))),
        "run")) :=
  by
  refine ⟨rfl, rfl, rfl, rfl, rfl, rfl, rfl, rfl, rfl, rfl, ?_⟩
  apply c8_transform_hooks _ _ _ _ _ _ _ _ _ _
    (AnnData.mk [[1], [2]] [[3], [4], [5]] [⟨"A"⟩] "run") <;> rfl

end Mocap
